import Mathlib

/-!
Verification of the lot-size / risk calculator (`src/lot-calc.py`).

Shallow embedding conventions:
  * Python floats are modelled as exact rationals (`ℚ`); the program's
    arithmetic is the usual field arithmetic on those values.
  * `round(x, d)` (Python's builtin, used by `round_price`) is modelled as
    rounding to the nearest multiple of `10 ^ (-d)` with ties to even, the
    round-half-even rule Python documents for `round`.
  * The interactive `input()` loops are modelled by passing the stream of
    (already parsed) candidate values as an explicit list; a loop that
    re-prompts consumes the next list element, and an exhausted list yields
    `none`.  Python's `float(raw)` parse failures simply correspond to
    values absent from the list.
  * For the symbol prompt the source first applies the pure string
    normalisation `.strip().lower()` to the raw line; that normalisation is
    treated as part of the input boundary, so the candidate strings of the
    model are the already-normalised prompt answers.
-/

namespace LotCalc

/-- Trade side, `"buy"` or `"sell"` in the source. -/
inductive Side
  | buy
  | sell
deriving DecidableEq, Repr

/-- Risk-specification mode from `get_risk_input`: `"%"` (percentage of
equity) or `"$"` (absolute currency amount). -/
inductive RiskMode
  | percent
  | dollar
deriving DecidableEq, Repr

/-- `SymbolRules` dataclass (lot-calc.py:5-12). -/
structure SymbolRules where
  contract_size : ℚ
  lot_step : ℚ
  min_lot : ℚ
  max_lot : ℚ
  digits : ℕ
  stops_level_points : ℕ
deriving DecidableEq, Repr

/-- The rules for symbol `"gold"` (lot-calc.py:15). -/
def goldRules : SymbolRules :=
  { contract_size := 100, lot_step := 1/100, min_lot := 1/100,
    max_lot := 100, digits := 2, stops_level_points := 20 }

/-- The rules for symbol `"btc"` (lot-calc.py:16). -/
def btcRules : SymbolRules :=
  { contract_size := 1, lot_step := 1/100, min_lot := 1/100,
    max_lot := 100, digits := 2, stops_level_points := 0 }

/-- The rules for symbol `"nas100"` (lot-calc.py:17). -/
def nas100Rules : SymbolRules :=
  { contract_size := 1, lot_step := 1/100, min_lot := 1/100,
    max_lot := 500, digits := 2, stops_level_points := 50 }

/-- The rules for symbol `"dj30"` (lot-calc.py:18). -/
def dj30Rules : SymbolRules :=
  { contract_size := 1, lot_step := 1/100, min_lot := 1/100,
    max_lot := 500, digits := 2, stops_level_points := 0 }

/-- The `RULES` dict (lot-calc.py:14-19), as an association list. -/
def RULES : List (String × SymbolRules) :=
  [("gold", goldRules), ("btc", btcRules),
   ("nas100", nas100Rules), ("dj30", dj30Rules)]

/-- Dictionary lookup `RULES[raw]` / membership `raw in RULES`. -/
def rulesLookup (s : String) : Option SymbolRules :=
  (RULES.find? (fun p => p.1 = s)).map Prod.snd

/-- `point_size(d) = 10 ** (-d)` (lot-calc.py:21-22). -/
def point_size (d : ℕ) : ℚ :=
  (10 : ℚ) ^ (-(d : ℤ))

/-- `min_stop_distance(r) = r.stops_level_points * point_size(r.digits)`
(lot-calc.py:24-25). -/
def min_stop_distance (r : SymbolRules) : ℚ :=
  (r.stops_level_points : ℚ) * point_size r.digits

/-- Round a rational to the nearest integer, ties to even: the behaviour
Python documents for the builtin `round`. -/
def roundHalfEven (q : ℚ) : ℤ :=
  if q - ⌊q⌋ < 1/2 then ⌊q⌋
  else if 1/2 < q - ⌊q⌋ then ⌊q⌋ + 1
  else if ⌊q⌋ % 2 = 0 then ⌊q⌋ else ⌊q⌋ + 1

/-- `round_price(x, d) = round(x, d)` (lot-calc.py:27-28): round to the
nearest multiple of `10 ^ (-d)`, ties to even. -/
def round_price (x : ℚ) (d : ℕ) : ℚ :=
  (roundHalfEven (x * 10 ^ d) : ℚ) / 10 ^ d

/-- `round_down(x, step) = math.floor(x / step) * step` (lot-calc.py:30-31). -/
def round_down (x step : ℚ) : ℚ :=
  (⌊x / step⌋ : ℚ) * step

/-- `clamp(x, lo, hi) = max(lo, min(hi, x))` (lot-calc.py:33-34). -/
def clamp (x lo hi : ℚ) : ℚ :=
  max lo (min hi x)

/-- `get_float_retry(prompt, min_value=0)` (lot-calc.py:36-45) over an
explicit input stream: returns the first candidate strictly greater than
the bound (`v <= min_value` raises and re-prompts). -/
def get_float_retry (minValue : ℚ) : List ℚ → Option ℚ
  | [] => none
  | v :: rest => if minValue < v then some v else get_float_retry minValue rest

/-- `get_symbol()` (lot-calc.py:58-65) over an explicit input stream.
Each candidate is the already-normalised text of one prompt answer (the
source applies the pure string normalisation `.strip().lower()` to the raw
line before any test; that normalisation is treated as part of the input
boundary here).  Empty input yields the default `("gold", RULES["gold"])`;
a known symbol (`raw in RULES`) is returned with its rules; anything else
prints a diagnostic and re-prompts (consumes the next candidate). -/
def get_symbol : List String → Option (String × SymbolRules)
  | [] => none
  | raw :: rest =>
    if raw = "" then some ("gold", goldRules)
    else
      match rulesLookup raw with
      | some r => some (raw, r)
      | none => get_symbol rest

/-- The directional rejection tests of the stop loop
(lot-calc.py:86-94): stop equal to entry, a BUY stop not below entry, or a
SELL stop not above entry, each `continue` the loop. -/
def stopDirectionalReject (side : Side) (entry stop : ℚ) : Bool :=
  if stop = entry then true
  else if side = Side.buy ∧ entry ≤ stop then true
  else if side = Side.sell ∧ stop ≤ entry then true
  else false

/-- The minimum-distance rejection test of the stop loop
(lot-calc.py:96-100): with `dist = |entry - stop|` and
`msd = min_stop_distance(rules)`, the candidate is rejected when
`msd > 0 and dist < msd`. -/
def stopDistanceReject (r : SymbolRules) (entry stop : ℚ) : Bool :=
  if 0 < min_stop_distance r ∧ |entry - stop| < min_stop_distance r then true
  else false

/-- The full acceptance predicate of the stop loop (lot-calc.py:86-100):
a candidate survives when neither the directional checks nor the
minimum-distance check fires. -/
def stopAccepted (side : Side) (r : SymbolRules) (entry stop : ℚ) : Bool :=
  !stopDirectionalReject side entry stop && !stopDistanceReject r entry stop

/-- The stop-loss loop of `get_valid_entry_stop` (lot-calc.py:83-102) over
an explicit input stream.  Each candidate first passes
`get_float_retry(min_value=0)` (values `≤ 0` re-prompt), is rounded with
`round_price(·, rules.digits)`, and is then subjected to the rejection
tests; the first surviving candidate is returned. -/
def stopLoop (side : Side) (r : SymbolRules) (entry : ℚ) : List ℚ → Option ℚ
  | [] => none
  | v :: rest =>
    if 0 < v then
      let stop := round_price v r.digits
      if stopAccepted side r entry stop then some stop
      else stopLoop side r entry rest
    else stopLoop side r entry rest

/-- `get_valid_entry_stop(side, rules)` (lot-calc.py:80-102) over explicit
input streams for the entry prompt and the stop prompt: the entry is the
first strictly positive candidate, rounded to `rules.digits`; the stop is
the first candidate surviving every check. -/
def get_valid_entry_stop (side : Side) (r : SymbolRules)
    (entryInputs stopInputs : List ℚ) : Option (ℚ × ℚ) :=
  match get_float_retry 0 entryInputs with
  | none => none
  | some rawEntry =>
    let entry := round_price rawEntry r.digits
    match stopLoop side r entry stopInputs with
    | none => none
    | some stop => some (entry, stop)

/-- The core calculation of `main` (lot-calc.py:126-137). -/
structure CalcResult where
  stop_distance : ℚ
  raw_lot : ℚ
  lot : ℚ
  risk_used : ℚ
  tp : ℚ
deriving DecidableEq, Repr

/-- The core math of `main` (lot-calc.py:126-137), verbatim from the
source: stop distance, raw lot, floored and clamped lot, realized risk,
take-profit. -/
def riskCalc (side : Side) (r : SymbolRules) (entry stop risk_dollars rr : ℚ) :
    CalcResult :=
  let stop_distance := |entry - stop|
  let loss_per_1_lot := stop_distance * r.contract_size
  let raw_lot := risk_dollars / loss_per_1_lot
  let lot0 := round_down raw_lot r.lot_step
  let lot := clamp lot0 r.min_lot r.max_lot
  let risk_used := stop_distance * r.contract_size * lot
  let tp_dist := stop_distance * rr
  let tp := if side = Side.buy then entry + tp_dist else entry - tp_dist
  { stop_distance := stop_distance, raw_lot := raw_lot, lot := lot,
    risk_used := risk_used, tp := round_price tp r.digits }

/-- The risk-selection branch of `main` (lot-calc.py:113-119): in
percentage mode `equity` is read and `risk_dollars = equity * risk_pct /
100`; in absolute mode `equity = None` and `risk_dollars` is read
directly. -/
def resolveRisk (mode : RiskMode) (equityIn riskPctIn riskAmtIn : ℚ) :
    Option ℚ × ℚ :=
  if mode = RiskMode.percent then (some equityIn, equityIn * (riskPctIn / 100))
  else (none, riskAmtIn)

/-- The warning branch of `main` (lot-calc.py:148-150): when
`risk_mode == "%"` and `risk_used > risk_dollars * 1.01`, the realized
risk percentage `risk_used / equity * 100` is computed and printed.  The
division against an absent (`None`) equity would raise a `TypeError`,
modelled as `Except.error`; otherwise the optional warning value is
returned. -/
def riskWarning (mode : RiskMode) (equity : Option ℚ)
    (risk_used risk_dollars : ℚ) : Except String (Option ℚ) :=
  if mode = RiskMode.percent ∧ risk_dollars * (101/100) < risk_used then
    match equity with
    | some e => Except.ok (some (risk_used / e * 100))
    | none => Except.error "TypeError: float / NoneType"
  else Except.ok none

/-- Decidable equality for `Except`, needed to evaluate concrete runs. -/
instance {ε α : Type} [DecidableEq ε] [DecidableEq α] :
    DecidableEq (Except ε α) := fun a b =>
  match a, b with
  | .ok x, .ok y => decidable_of_iff (x = y) (by simp)
  | .error x, .error y => decidable_of_iff (x = y) (by simp)
  | .ok _, .error _ => isFalse (by simp)
  | .error _, .ok _ => isFalse (by simp)

/-- Result of a full run of `main` (lot-calc.py:104-150), excluding the
plain-text formatting. -/
structure MainResult where
  equity : Option ℚ
  risk_dollars : ℚ
  result : CalcResult
  warning : Except String (Option ℚ)
deriving DecidableEq, Repr

/-- The pipeline of `main` (lot-calc.py:104-150) after symbol and side
resolution: risk selection, entry/stop validation, core math, and the
warning branch. -/
def runMain (mode : RiskMode) (equityIn riskPctIn riskAmtIn rr : ℚ)
    (side : Side) (r : SymbolRules) (entryInputs stopInputs : List ℚ) :
    Option MainResult :=
  let eq_rd := resolveRisk mode equityIn riskPctIn riskAmtIn
  match get_valid_entry_stop side r entryInputs stopInputs with
  | none => none
  | some (entry, stop) =>
    let res := riskCalc side r entry stop eq_rd.2 rr
    some { equity := eq_rd.1, risk_dollars := eq_rd.2, result := res,
           warning := riskWarning mode eq_rd.1 res.risk_used eq_rd.2 }

/-- The Calculation Result as §4.4 of the spec words it: `raw_lot =
risk_dollars / (|entry − stop| * contract_size)`, `lot =
clamp(round_down(raw_lot, lot_step), min_lot, max_lot)`, `risk_used =
|entry − stop| * contract_size * lot`, and `take_profit` at distance
`|entry − stop| * rr` above entry for `buy`, below for `sell`, rounded to
`digits`.  Written from the spec's words, to be compared with `riskCalc`,
which is written from the source. -/
def calcFromSpec (side : Side) (r : SymbolRules)
    (entry stop risk_dollars rr : ℚ) : CalcResult :=
  let lot := clamp
    (round_down (risk_dollars / (|entry - stop| * r.contract_size)) r.lot_step)
    r.min_lot r.max_lot
  { stop_distance := |entry - stop|
    raw_lot := risk_dollars / (|entry - stop| * r.contract_size)
    lot := lot
    risk_used := |entry - stop| * r.contract_size * lot
    tp := if side = Side.buy then round_price (entry + |entry - stop| * rr) r.digits
          else round_price (entry - |entry - stop| * rr) r.digits }

/-- Unfolding lemma: the `raw_lot` field of the core math. -/
theorem riskCalc_raw_lot (side : Side) (r : SymbolRules)
    (entry stop risk_dollars rr : ℚ) :
    (riskCalc side r entry stop risk_dollars rr).raw_lot
      = risk_dollars / (|entry - stop| * r.contract_size) := rfl

/-- Unfolding lemma: the `lot` field of the core math. -/
theorem riskCalc_lot (side : Side) (r : SymbolRules)
    (entry stop risk_dollars rr : ℚ) :
    (riskCalc side r entry stop risk_dollars rr).lot
      = clamp (round_down (risk_dollars / (|entry - stop| * r.contract_size))
          r.lot_step) r.min_lot r.max_lot := rfl

/-- Unfolding lemma: the `risk_used` field of the core math. -/
theorem riskCalc_risk_used (side : Side) (r : SymbolRules)
    (entry stop risk_dollars rr : ℚ) :
    (riskCalc side r entry stop risk_dollars rr).risk_used
      = |entry - stop| * r.contract_size
          * (riskCalc side r entry stop risk_dollars rr).lot := rfl

/-- Unfolding lemma: `point_size` as an ordinary fraction. -/
theorem point_size_eq (d : ℕ) : point_size d = ((10 : ℚ) ^ d)⁻¹ := by
  simp [point_size, zpow_neg, zpow_natCast]

/-- C1: End-to-end scenario B.  With symbol gold (contract_size 100,
lot_step 0.01, min_lot 0.01, max_lot 100, digits 2, stops_level_points 20),
percentage risk mode, equity 100, risk percentage 1, entry 2000.00 and
stop 1998.00: the pipeline computes `risk_dollars = 1.00`,
`raw_lot = 0.005`, floors it to `0.00`, clamps it up to `min_lot` giving
`lot = 0.01`, reports `risk_used = 2.00`, and emits the over-budget
warning reporting a realized risk of `2.00%` of equity. -/
theorem scenarioB_pipeline :
    round_down (riskCalc Side.buy goldRules 2000 1998 1 2).raw_lot
        goldRules.lot_step = 0
  ∧ runMain RiskMode.percent 100 1 0 2 Side.buy goldRules [2000] [1998] =
      some { equity := some 100, risk_dollars := 1,
             result := { stop_distance := 2, raw_lot := 1/200, lot := 1/100,
                         risk_used := 2, tp := 2004 },
             warning := Except.ok (some 2) } := by
  constructor
  · rw [riskCalc_raw_lot]
    norm_num [round_down, goldRules]
  · simp [runMain, resolveRisk, get_valid_entry_stop, get_float_retry,
      stopLoop, stopAccepted, stopDirectionalReject, stopDistanceReject,
      min_stop_distance, point_size, round_price, roundHalfEven, round_down,
      clamp, riskCalc, riskWarning, goldRules]
    norm_num

/-- C2: For every validated input (entry and stop on the correct side for
the trade's direction, rules with positive contract size and lot step), the
calculator from the source produces exactly the spec's Calculation Result:
`lot = clamp(round_down(risk_dollars / (|entry − stop| * contract_size),
lot_step), min_lot, max_lot)`, `risk_used = |entry − stop| * contract_size
* lot`, and the take-profit at distance `|entry − stop| * rr` above entry
for buy, below for sell, rounded to `digits`. -/
theorem riskCalc_refines_spec (side : Side) (r : SymbolRules)
    (entry stop risk_dollars rr : ℚ)
    (hbuy : side = Side.buy → stop < entry)
    (hsell : side = Side.sell → entry < stop)
    (hcs : 0 < r.contract_size) (hstep : 0 < r.lot_step) :
    riskCalc side r entry stop risk_dollars rr
      = calcFromSpec side r entry stop risk_dollars rr := by
  cases side <;> simp [riskCalc, calcFromSpec]

/-- Witness for C2 at gold, side buy, entry 2000, stop 1998, risk budget
100, risk:reward 2. -/
theorem riskCalc_refines_spec_witness :
    riskCalc Side.buy goldRules 2000 1998 100 2
      = calcFromSpec Side.buy goldRules 2000 1998 100 2 :=
  riskCalc_refines_spec Side.buy goldRules 2000 1998 100 2
    (fun _ => by norm_num) (fun h => nomatch h)
    (by norm_num [goldRules]) (by norm_num [goldRules])

/-- C3: The directional checks of the stop loop reject a candidate exactly
when it violates the side rule: for buy every stop ≥ entry is rejected, for
sell every stop ≤ entry is rejected (stop equal to entry falls under both),
and a stop on the correct side is not rejected by these checks. -/
theorem stopDirectionalReject_iff (side : Side) (entry stop : ℚ) :
    stopDirectionalReject side entry stop = true ↔
      (side = Side.buy ∧ entry ≤ stop) ∨ (side = Side.sell ∧ stop ≤ entry) := by
  cases side <;> simp [stopDirectionalReject] <;> (intro h; simp [h])

/-- C4: The minimum-distance check.  With `stops_level_points = 0` any
candidate (in particular any nonzero distance) passes; with
`stops_level_points = P > 0` and `digits = D`, a stop at distance exactly
`P * 10^(-D)` from entry passes and a stop at any strictly smaller nonzero
distance is rejected — the boundary is inclusive. -/
theorem stopDistanceReject_boundary (r : SymbolRules) (entry stop : ℚ) :
    (r.stops_level_points = 0 →
      stopDistanceReject r entry stop = false)
  ∧ (0 < r.stops_level_points →
      (|entry - stop| = (r.stops_level_points : ℚ) / 10 ^ r.digits →
        stopDistanceReject r entry stop = false)
    ∧ (|entry - stop| ≠ 0 →
        |entry - stop| < (r.stops_level_points : ℚ) / 10 ^ r.digits →
        stopDistanceReject r entry stop = true)) := by
  have hmsd : min_stop_distance r
      = (r.stops_level_points : ℚ) / 10 ^ r.digits := by
    rw [min_stop_distance, point_size_eq, div_eq_mul_inv]
  refine ⟨fun h0 => ?_, fun hP => ⟨fun heq => ?_, fun _ hlt => ?_⟩⟩
  · simp [stopDistanceReject, min_stop_distance, h0]
  · simp only [stopDistanceReject, hmsd, heq]
    simp
  · have hpos : 0 < (r.stops_level_points : ℚ) / 10 ^ r.digits := by
      apply div_pos
      · exact_mod_cast hP
      · positivity
    simp only [stopDistanceReject, hmsd]
    simp [hpos, hlt]

/-- Witness for C4: gold (P = 20, D = 2) accepts a stop at distance
exactly 0.20 and rejects one at distance 0.10; btc (P = 0) accepts a stop
at distance 1. -/
theorem stopDistanceReject_boundary_witness :
    stopDistanceReject goldRules 2000 (9999/5) = false
  ∧ stopDistanceReject goldRules 2000 (19999/10) = true
  ∧ stopDistanceReject btcRules 50000 50001 = false :=
  ⟨(stopDistanceReject_boundary goldRules 2000 (9999/5)).2
      (by norm_num [goldRules]) |>.1 (by norm_num [goldRules]),
   (stopDistanceReject_boundary goldRules 2000 (19999/10)).2
      (by norm_num [goldRules]) |>.2 (by norm_num)
      (by
        have h : (2000 : ℚ) - 19999/10 = 1/10 := by norm_num
        rw [h, abs_of_pos (by norm_num : (0:ℚ) < 1/10)]
        norm_num [goldRules]),
   (stopDistanceReject_boundary btcRules 50000 50001).1 (by norm_num [btcRules])⟩

/-- C5: Whenever the step-floored raw lot already lies inside
`[min_lot, max_lot]` (so clamping does not change it), the realized risk
is at most the requested budget: flooring to the lot step never increases
risk beyond the budget on its own. -/
theorem step_floor_risk_within_budget (side : Side) (r : SymbolRules)
    (entry stop risk_dollars rr : ℚ)
    (hcs : 0 < r.contract_size) (hstep : 0 < r.lot_step) (hne : entry ≠ stop)
    (hlo : r.min_lot ≤ round_down
      (riskCalc side r entry stop risk_dollars rr).raw_lot r.lot_step)
    (hhi : round_down
      (riskCalc side r entry stop risk_dollars rr).raw_lot r.lot_step
        ≤ r.max_lot) :
    (riskCalc side r entry stop risk_dollars rr).risk_used ≤ risk_dollars := by
  have hd : 0 < |entry - stop| := abs_pos.mpr (sub_ne_zero.mpr hne)
  have hloss : 0 < |entry - stop| * r.contract_size := mul_pos hd hcs
  rw [riskCalc_raw_lot] at hlo hhi
  rw [riskCalc_risk_used, riskCalc_lot]
  have hclamp : clamp (round_down
        (risk_dollars / (|entry - stop| * r.contract_size)) r.lot_step)
        r.min_lot r.max_lot
      = round_down (risk_dollars / (|entry - stop| * r.contract_size))
          r.lot_step := by
    rw [clamp, min_eq_right hhi, max_eq_right hlo]
  rw [hclamp]
  have hfloor : round_down
      (risk_dollars / (|entry - stop| * r.contract_size)) r.lot_step
      ≤ risk_dollars / (|entry - stop| * r.contract_size) := by
    rw [round_down]
    calc (⌊risk_dollars / (|entry - stop| * r.contract_size) / r.lot_step⌋ : ℚ)
          * r.lot_step
        ≤ risk_dollars / (|entry - stop| * r.contract_size) / r.lot_step
            * r.lot_step :=
          mul_le_mul_of_nonneg_right (Int.floor_le _) hstep.le
      _ = risk_dollars / (|entry - stop| * r.contract_size) :=
          div_mul_cancel₀ _ hstep.ne'
  calc |entry - stop| * r.contract_size * round_down
        (risk_dollars / (|entry - stop| * r.contract_size)) r.lot_step
      ≤ |entry - stop| * r.contract_size
          * (risk_dollars / (|entry - stop| * r.contract_size)) :=
        mul_le_mul_of_nonneg_left hfloor hloss.le
    _ = risk_dollars := by
        rw [mul_comm]
        exact div_mul_cancel₀ _ hloss.ne'

/-- Witness for C5 at scenario A: gold, entry 2000, stop 1998, budget 100;
the floored raw lot 0.50 lies inside `[0.01, 100]` and the realized risk
100 does not exceed the budget. -/
theorem step_floor_risk_within_budget_witness :
    (riskCalc Side.buy goldRules 2000 1998 100 2).risk_used ≤ 100 :=
  step_floor_risk_within_budget Side.buy goldRules 2000 1998 100 2
    (by norm_num [goldRules]) (by norm_num [goldRules]) (by norm_num)
    (by norm_num [riskCalc_raw_lot, round_down, goldRules])
    (by norm_num [riskCalc_raw_lot, round_down, goldRules])

/-- C6: With the equity value exactly as `main` passes it (present in
percentage mode, absent otherwise), the realized-risk warning is produced
if and only if the risk mode is percentage and `risk_used` exceeds
`risk_dollars * 1.01`; in that case it carries the realized risk as a
percentage of equity.  When the realized risk is at or below a nonnegative
budget — in particular when clamping to `max_lot` pushed it below the
budget — no warning of any kind is emitted. -/
theorem riskWarning_iff (mode : RiskMode) (e risk_used risk_dollars : ℚ) :
    (riskWarning mode (if mode = RiskMode.percent then some e else none)
        risk_used risk_dollars = Except.ok (some (risk_used / e * 100))
      ↔ mode = RiskMode.percent ∧ risk_dollars * (101/100) < risk_used)
  ∧ (risk_used ≤ risk_dollars → 0 ≤ risk_dollars →
      riskWarning mode (if mode = RiskMode.percent then some e else none)
        risk_used risk_dollars = Except.ok none) := by
  constructor
  · cases mode <;> simp [riskWarning]
  · intro h1 h2
    have hno : ¬ risk_dollars * (101/100) < risk_used := by nlinarith
    cases mode <;> simp [riskWarning, hno]

/-- Witness for C6: in percentage mode with equity 100, realized risk 2
against budget 1 produces the warning value 2; in absolute mode a realized
risk 1 within budget 2 produces no warning. -/
theorem riskWarning_iff_witness :
    riskWarning RiskMode.percent (some 100) 2 1 = Except.ok (some (2 / 100 * 100))
  ∧ riskWarning RiskMode.dollar none 1 2 = Except.ok none :=
  ⟨by
    have h := (riskWarning_iff RiskMode.percent 100 2 1).1.mpr
      ⟨rfl, by norm_num⟩
    simpa using h,
   by
    have h := (riskWarning_iff RiskMode.dollar 100 1 2).2
      (by norm_num) (by norm_num)
    simpa using h⟩

/-- C7 counterexample: an unknown symbol does not fall back to the
default.  On the input stream `["silver", "btc"]` the symbol prompt
re-prompts past the unknown `"silver"` and returns `btc` with btc's rules,
not the default `gold`. -/
theorem get_symbol_no_fallback_counterexample :
    get_symbol ["silver", "btc"] = some ("btc", btcRules)
  ∧ get_symbol ["silver", "btc"] ≠ some ("gold", goldRules) := by
  have hbtc : get_symbol ["silver", "btc"] = some ("btc", btcRules) := by
    simp [get_symbol, rulesLookup, RULES]
  refine ⟨hbtc, ?_⟩
  intro hcontra
  rw [hbtc] at hcontra
  have hname : "btc" = "gold" :=
    congrArg (fun o => (Option.map Prod.fst o).getD "") hcontra
  exact absurd hname (by decide)

/-- C7 amended: an unknown, nonempty symbol answer is rejected and the
prompt retries on the rest of the input stream; only an empty answer falls
back to the default symbol gold with gold's rules. -/
theorem get_symbol_unknown_reprompts (raw : String) (rest : List String)
    (hne : raw ≠ "") (hunk : rulesLookup raw = none) :
    get_symbol (raw :: rest) = get_symbol rest
  ∧ get_symbol ("" :: rest) = some ("gold", goldRules) := by
  refine ⟨?_, by simp [get_symbol]⟩
  simp [get_symbol, hne, hunk]

/-- Witness for the amended C7: the unknown answer `"silver"` makes the
prompt retry, and an empty answer yields gold. -/
theorem get_symbol_unknown_reprompts_witness :
    get_symbol ["silver", "btc"] = get_symbol ["btc"]
  ∧ get_symbol ("" :: ["btc"]) = some ("gold", goldRules) :=
  get_symbol_unknown_reprompts "silver" ["btc"] (by decide) (by decide)

/-- C8: For every `x ≥ 0` and every `step > 0`, `round_down x step` is a
multiple of `step` and is at most `x`. -/
theorem round_down_multiple_le (x step : ℚ) (hx : 0 ≤ x) (hstep : 0 < step) :
    (∃ k : ℤ, round_down x step = k * step) ∧ round_down x step ≤ x := by
  refine ⟨⟨⌊x / step⌋, rfl⟩, ?_⟩
  rw [round_down]
  calc (⌊x / step⌋ : ℚ) * step ≤ x / step * step :=
      mul_le_mul_of_nonneg_right (Int.floor_le _) hstep.le
    _ = x := div_mul_cancel₀ _ hstep.ne'

/-- Witness for C8 at `x = 0.005`, `step = 0.01`. -/
theorem round_down_multiple_le_witness :
    (∃ k : ℤ, round_down (1/200) (1/100) = k * (1/100))
  ∧ round_down (1/200) (1/100) ≤ 1/200 :=
  round_down_multiple_le (1/200) (1/100) (by norm_num) (by norm_num)

/-- Helper: a value returned by `get_float_retry` is one of the candidates
and lies strictly above the bound. -/
theorem get_float_retry_mem_pos (m v : ℚ) (l : List ℚ)
    (h : get_float_retry m l = some v) : v ∈ l ∧ m < v := by
  induction l with
  | nil => simp [get_float_retry] at h
  | cons a rest ih =>
    simp only [get_float_retry] at h
    split_ifs at h with ha
    · injection h with h
      subst h
      exact ⟨List.mem_cons_self _ _, ha⟩
    · obtain ⟨hmem, hv⟩ := ih h
      exact ⟨List.mem_cons_of_mem _ hmem, hv⟩

/-- Helper: a stop returned by the stop loop is the rounding of some
strictly positive candidate from the stream. -/
theorem stopLoop_mem (side : Side) (r : SymbolRules) (entry s : ℚ)
    (l : List ℚ) (h : stopLoop side r entry l = some s) :
    ∃ v ∈ l, 0 < v ∧ s = round_price v r.digits := by
  induction l with
  | nil => simp [stopLoop] at h
  | cons a rest ih =>
    simp only [stopLoop] at h
    split_ifs at h with ha hacc
    · injection h with h
      exact ⟨a, List.mem_cons_self _ _, ha, h.symm⟩
    · obtain ⟨v, hv, h0, hs⟩ := ih h
      exact ⟨v, List.mem_cons_of_mem _ hv, h0, hs⟩
    · obtain ⟨v, hv, h0, hs⟩ := ih h
      exact ⟨v, List.mem_cons_of_mem _ hv, h0, hs⟩

/-- Helper: rounding a nonnegative price keeps it nonnegative. -/
theorem round_price_nonneg (x : ℚ) (d : ℕ) (hx : 0 ≤ x) :
    0 ≤ round_price x d := by
  rw [round_price]
  apply div_nonneg _ (by positivity)
  have h0 : (0 : ℤ) ≤ ⌊x * 10 ^ d⌋ :=
    Int.floor_nonneg.mpr (mul_nonneg hx (by positivity))
  rw [roundHalfEven]
  split_ifs
  · exact_mod_cast h0
  · exact_mod_cast Int.add_nonneg h0 (by norm_num)
  · exact_mod_cast h0
  · exact_mod_cast Int.add_nonneg h0 (by norm_num)

/-- C9 counterexample: the validator's positivity test runs on the raw
candidate before rounding, so an accepted entry need not be strictly
positive.  For side sell on gold, raw entry `0.001` (which is `> 0` and
accepted) rounds to `0.00` at two digits, and the pair `(0, 1)` is
returned: the accepted entry is not strictly positive. -/
theorem get_valid_entry_stop_zero_entry_counterexample :
    get_valid_entry_stop Side.sell goldRules [1/1000] [1] = some (0, 1)
  ∧ ¬ (0 : ℚ) < 0 := by
  refine ⟨?_, by norm_num⟩
  simp [get_valid_entry_stop, get_float_retry, stopLoop, stopAccepted,
    stopDirectionalReject, stopDistanceReject, min_stop_distance, point_size,
    round_price, roundHalfEven, goldRules]
  norm_num [Int.fract]

/-- C9 amended: every raw entry and stop candidate accepted by the
positivity gate is strictly positive, and that gate runs before any
directional or distance check; the returned prices are the roundings of
those strictly positive raw candidates, hence nonnegative — but after
rounding to the symbol's digits they may be zero. -/
theorem get_valid_entry_stop_positive_raw (side : Side) (r : SymbolRules)
    (entryInputs stopInputs : List ℚ) (e s : ℚ)
    (h : get_valid_entry_stop side r entryInputs stopInputs = some (e, s)) :
    0 ≤ e ∧ 0 ≤ s
  ∧ (∃ re ∈ entryInputs, 0 < re ∧ e = round_price re r.digits)
  ∧ (∃ rs ∈ stopInputs, 0 < rs ∧ s = round_price rs r.digits) := by
  rw [get_valid_entry_stop] at h
  rcases hE : get_float_retry 0 entryInputs with _ | rawEntry
  · rw [hE] at h
    exact absurd h (by simp)
  · rw [hE] at h
    replace h :
        (match stopLoop side r (round_price rawEntry r.digits) stopInputs with
          | none => none
          | some stop => some (round_price rawEntry r.digits, stop))
          = some (e, s) := h
    rcases hS : stopLoop side r (round_price rawEntry r.digits) stopInputs
        with _ | stop
    · rw [hS] at h
      exact absurd h (by simp)
    · rw [hS] at h
      simp only [Option.some.injEq, Prod.mk.injEq] at h
      obtain ⟨he, hs⟩ := h
      obtain ⟨hEmem, hEpos⟩ := get_float_retry_mem_pos 0 rawEntry entryInputs hE
      obtain ⟨v, hvmem, hvpos, hvs⟩ :=
        stopLoop_mem side r (round_price rawEntry r.digits) stop stopInputs hS
      subst he hs
      exact ⟨round_price_nonneg rawEntry r.digits hEpos.le,
        hvs ▸ round_price_nonneg v r.digits hvpos.le,
        ⟨rawEntry, hEmem, hEpos, rfl⟩, ⟨v, hvmem, hvpos, hvs⟩⟩

/-- Witness for the amended C9 at gold, side buy, raw entry 2000, raw stop
1998. -/
theorem get_valid_entry_stop_positive_raw_witness :
    (0 : ℚ) ≤ 2000 ∧ (0 : ℚ) ≤ 1998
  ∧ (∃ re ∈ [(2000 : ℚ)], 0 < re ∧ (2000 : ℚ) = round_price re goldRules.digits)
  ∧ (∃ rs ∈ [(1998 : ℚ)], 0 < rs ∧ (1998 : ℚ) = round_price rs goldRules.digits) :=
  get_valid_entry_stop_positive_raw Side.buy goldRules [2000] [1998] 2000 1998
    (by
      simp [get_valid_entry_stop, get_float_retry, stopLoop, stopAccepted,
        stopDirectionalReject, stopDistanceReject, min_stop_distance,
        point_size, round_price, roundHalfEven, goldRules]
      norm_num)

/-- C10: In absolute-currency risk mode `main` leaves the equity absent
(`None`), and the warning branch, guarded by the percentage-mode check,
returns without evaluating the division by equity — so the absent equity
never causes a failure. -/
theorem dollar_mode_equity_absent_safe
    (equityIn riskPctIn riskAmtIn risk_used risk_dollars : ℚ) :
    (resolveRisk RiskMode.dollar equityIn riskPctIn riskAmtIn).1 = none
  ∧ riskWarning RiskMode.dollar
      (resolveRisk RiskMode.dollar equityIn riskPctIn riskAmtIn).1
      risk_used risk_dollars = Except.ok none := by
  simp [resolveRisk, riskWarning]

end LotCalc
